import Mathlib

/-!
Shallow embedding of the stream-reconciliation engine of swarm-comment-js
(src/lib/core.ts: classes SwarmComment and SwarmHistory, src/utils/bee.ts,
src/utils/validation.ts, src/utils/common.ts, src/lib/constants.ts).

Modelling conventions:
* bigint values become Int; JS strings of digits become List Nat of
  character code points; network reads and writes become explicit oracle
  parameters (an Option value: none models a thrown or not-found result).
* Cryptographic primitives (keccak digest, ECDSA signature check) are
  out of scope per the spec and appear as an abstract boolean oracle
  isValid passed to the validation function.
* Asynchronous methods are modelled as pure state transformers on the
  mutable fields of SwarmComment and SwarmHistory, taking the results of
  their awaited network calls as arguments.
-/

namespace SwarmCommentJs

/-- MessageType from the comment-system collaborator: TEXT, THREAD, REACTION. -/
inductive MessageType
  | text
  | thread
  | reaction
deriving DecidableEq

/-- MessageData (src/lib/core.ts sendMessage builds this object; fields used by
the engine). Opaque string-valued fields are modelled as Nat identifiers.
isLegacy and signature are the fields read by validateUserSignature. -/
structure MessageData where
  id : Nat
  username : Nat
  address : Nat
  timestamp : Int
  type : MessageType
  targetMessageId : Option Nat
  message : Nat
  isLegacy : Bool
  signature : Option Nat
deriving DecidableEq

/-- The object produced by a cast of the empty object literal to MessageData in
SwarmHistory.fetchLatestMessage when no comment is found. -/
def emptyMessage : MessageData :=
  { id := 0, username := 0, address := 0, timestamp := 0, type := .text,
    targetMessageId := none, message := 0, isLegacy := false, signature := none }

/-- FeedIndex.MINUS_ONE.toBigInt(): the all-ones 8-byte feed index used by
bee-js as the "no index" marker, numerically 2 to the 64 minus 1. -/
def MINUS_ONE_BIG : Int := 18446744073709551615

/-- COMMENTS_TO_READ from src/lib/constants.ts. -/
def COMMENTS_TO_READ : Int := 9

/-- The mutable session fields of SwarmComment and its SwarmHistory:
userDetails.ownIndex (message-stream pointer), reactionIndex
(reaction-stream pointer), history.startIndex (history cursor), the
isSending write-in-flight guard, and the poll-loop flags. -/
structure CState where
  ownIndex : Int
  reactionIndex : Int
  startIndex : Int
  isSending : Bool
  stopFetch : Bool
  fetchProcessRunning : Bool
deriving DecidableEq

/-- Error outcomes thrown by SwarmComment.verifyWriteSuccess:
writeFailed is the 'Write failed, empty response' throw for a missing
upload result, checkFailed is the 'Comment check failed, empty response'
throw for an empty read-back, verifyMismatch is the
'Write verification failed' throw for a read-back whose id or timestamp
differ from what was written (the collision case). -/
inductive WriteError
  | writeFailed
  | checkFailed
  | verifyMismatch
deriving DecidableEq

/-- SwarmComment.verifyWriteSuccess (core.ts lines 280-303). writeResult
models the UploadResult of the append (none models a falsy result); data is
the optional messageObj argument; readBack models what
readSingleComment(index) at the written index returns. Note that the
read-back happens, and is compared, only when data is provided: the function
returns ok right away when data is absent, which is how the reaction branch
of sendMessage calls it. -/
def verifyWriteSuccess (writeResult : Option Unit) (data : Option MessageData)
    (readBack : Option MessageData) : Except WriteError Unit :=
  match writeResult with
  | none => .error .writeFailed
  | some _ =>
    match data with
    | none => .ok ()
    | some d =>
      match readBack with
      | none => .error .checkFailed
      | some dataCheck =>
        if dataCheck.id ≠ d.id ∨ dataCheck.timestamp ≠ d.timestamp then
          .error .verifyMismatch
        else
          .ok ()

/-- SwarmHistory.fetchLatestMessage (core.ts lines 449-459). The latest
argument models the pair of the comment returned by readSingleComment and
its index string parsed by indexStrToBigint; none models a missing comment
or an unparsable index. The parsed index 0 is folded into the no-comment
branch because the source guards with a JS truthiness test on the parsed
bigint, and 0n is falsy. -/
def historyFetchLatestMessage (latest : Option (MessageData × Int)) :
    MessageData × Int :=
  match latest with
  | some (c, ix) => if ix = 0 then (emptyMessage, MINUS_ONE_BIG) else (c, ix)
  | none => (emptyMessage, MINUS_ONE_BIG)

/-- SwarmComment.fetchLatestMessage (core.ts lines 252-267): skipped entirely
while isSending is set; otherwise advances ownIndex to the observed tip and
emits the tip comment only when the tip index is not MINUS_ONE and strictly
exceeds the current pointer. A thrown read is caught by the error handler
and leaves the state unchanged, which coincides with the latest = none case. -/
def fetchLatestMessage (s : CState) (latest : Option (MessageData × Int)) :
    CState × List MessageData :=
  if s.isSending then (s, [])
  else if (historyFetchLatestMessage latest).2 ≠ MINUS_ONE_BIG ∧
      s.ownIndex < (historyFetchLatestMessage latest).2 then
    ({ s with ownIndex := (historyFetchLatestMessage latest).2 },
      [(historyFetchLatestMessage latest).1])
  else (s, [])

/-- The pointer update of SwarmComment.fetchLatestReactions (core.ts lines
269-278). nextIx models the bigint of the FeedIndex returned by
SwarmHistory.fetchLatestReactionState; none models a thrown read, which the
source catches, leaving the pointer unchanged. -/
def fetchLatestReactionsCore (reactionIndex : Int) (nextIx : Option Int) : Int :=
  match nextIx with
  | none => reactionIndex
  | some nxt => if nxt - 1 > reactionIndex then nxt - 1 else reactionIndex

/-- SwarmComment.fetchLatestReactions as a state transformer: only the
reactionIndex field is touched, and the isSending guard is never consulted. -/
def fetchLatestReactions (s : CState) (nextIx : Option Int) : CState :=
  { s with reactionIndex := fetchLatestReactionsCore s.reactionIndex nextIx }

/-- The pointer-and-outcome core of the text/thread branch of
SwarmComment.sendMessage (core.ts lines 152-177), starting from the pointer
value p read after the pre-write resync: the next index is 0 when p is the
-1 sentinel and p plus 1 otherwise; on a verification error the catch block
runs and ownIndex is not assigned; on success ownIndex becomes the written
index. The Bool is true on the success path (request uploaded) and false on
the error path (request error emitted). -/
def sendTextFromPointer (p : Int) (writeRes : Option Unit)
    (readBack : Option MessageData) (m : MessageData) : Int × Bool :=
  match verifyWriteSuccess writeRes (some m) readBack with
  | .ok _ => (if p = -1 then 0 else p + 1, true)
  | .error _ => (p, false)

/-- The text/thread branch of SwarmComment.sendMessage as a state
transformer: it first resyncs through fetchLatestMessage (core.ts line 154),
then writes at the next index and verifies; the finally block clears
isSending on every exit. -/
def sendMessageText (s : CState) (latest : Option (MessageData × Int))
    (writeRes : Option Unit) (readBack : Option MessageData)
    (m : MessageData) : CState × Bool :=
  ({ (fetchLatestMessage s latest).1 with
      ownIndex :=
        (sendTextFromPointer (fetchLatestMessage s latest).1.ownIndex
          writeRes readBack m).1,
      isSending := false },
    (sendTextFromPointer (fetchLatestMessage s latest).1.ownIndex
      writeRes readBack m).2)

/-- The reaction branch of SwarmComment.sendMessage (core.ts lines 133-151)
as a state transformer: it first resyncs through fetchLatestReactions, takes
the next reaction index (0 from the -1 sentinel, pointer plus 1 otherwise),
writes the merged snapshot there, and calls verifyWriteSuccess without the
data argument; the finally block clears isSending on every exit. readBack
models what a fresh read at the written index would return; the source
never performs that read on this branch. -/
def sendMessageReaction (s : CState) (preNextIx : Option Int)
    (writeRes : Option Unit) (readBack : Option MessageData) : CState × Bool :=
  match verifyWriteSuccess writeRes none readBack with
  | .ok _ =>
      ({ fetchLatestReactions s preNextIx with
          reactionIndex :=
            if (fetchLatestReactions s preNextIx).reactionIndex = -1 then 0
            else (fetchLatestReactions s preNextIx).reactionIndex + 1,
          isSending := false }, true)
  | .error _ => ({ fetchLatestReactions s preNextIx with isSending := false }, false)

/-- SwarmComment.stop (core.ts lines 95-101): stops the poll loop, runs
SwarmHistory.cleanup (startIndex := -1), and resets reactionIndex to -1. -/
def stop (s : CState) : CState :=
  { s with
    stopFetch := true
    startIndex := -1
    reactionIndex := -1
    fetchProcessRunning := false }

/-- SwarmHistory.hasPreviousMessages (core.ts lines 461-463). -/
def hasPreviousMessages (startIndex : Int) : Bool := startIndex > 0

/-- SwarmHistory.fetchPreviousMessageState (core.ts lines 409-419), returning
the new cursor together with the inclusive index range handed to
fetchMessagesInRange, or none when the cursor is at most 0 and the call
returns without requesting anything. -/
def fetchPreviousMessageState (startIndex : Int) : Int × Option (Int × Int) :=
  if startIndex ≤ 0 then (startIndex, none)
  else if startIndex > COMMENTS_TO_READ then
    (startIndex - COMMENTS_TO_READ, some (startIndex - COMMENTS_TO_READ, startIndex - 1))
  else
    (0, some (0, startIndex - 1))

/-- validateUserSignature (src/utils/validation.ts): a legacy entry is
accepted without any check; otherwise the entry is accepted exactly when its
signature field is present and the signature verifies the recomputed digest
against the claimed address, which the abstract crypto oracle isValid
decides; any verification failure is caught and reported as false. -/
def validateUserSignature (isValid : MessageData → Bool) (m : MessageData) : Bool :=
  if m.isLegacy then true
  else
    match m.signature with
    | none => false
    | some _ => isValid m

/-- fetchMessagesInRange (src/utils/bee.ts lines 12-41): reads the inclusive
range through the readCommentsInRange oracle; a falsy result emits nothing;
otherwise every comment of the page failing validateUserSignature is skipped
with a warning while the remaining comments are emitted, and no error is
raised. The returned list is the sequence of MESSAGE_RECEIVED emissions. -/
def fetchMessagesInRange (startIndex endIndex : Int)
    (readCommentsInRange : Int → Int → Option (List MessageData))
    (isValid : MessageData → Bool) : List MessageData :=
  match readCommentsInRange startIndex endIndex with
  | none => []
  | some comments => comments.filter (fun c => validateUserSignature isValid c)

/-- SwarmComment.initOwnIndex (core.ts lines 211-242): seeds the pointer from
the optional checkpoint, performs the authoritative retried tip read (its
parsed index is the parsedIx argument; none models retry exhaustion folded
with an absent comment), and when the parsed index is truthy, not MINUS_ONE,
and strictly above the seeded pointer, advances the pointer to it and
backfills the gap through fetchMessagesInRange, whose emissions are
returned. -/
def initOwnIndex (latestIndex : Option Int) (ownIndex0 : Int)
    (parsedIx : Option Int)
    (readCommentsInRange : Int → Int → Option (List MessageData))
    (isValid : MessageData → Bool) : Int × List MessageData :=
  match parsedIx with
  | none => (latestIndex.getD ownIndex0, [])
  | some ix =>
    if ix ≠ 0 ∧ ix ≠ MINUS_ONE_BIG ∧ latestIndex.getD ownIndex0 < ix then
      (ix,
        fetchMessagesInRange
          ((match latestIndex with
            | none => ix - COMMENTS_TO_READ
            | some _ => latestIndex.getD ownIndex0) + 1)
          ix readCommentsInRange isValid)
    else (latestIndex.getD ownIndex0, [])

/-- The argument tuple a call of SwarmComment.sendMessage receives. -/
structure SendInvocation where
  message : Nat
  type : MessageType
  targetMessageId : Option Nat
  id : Option Nat
  prevState : Option (List MessageData)
deriving DecidableEq

/-- SwarmComment.retrySendMessage (core.ts lines 328-330): the arguments it
forwards to sendMessage; the fifth parameter prevState is not passed. -/
def retrySendMessage (m : MessageData) : SendInvocation :=
  { message := m.message, type := m.type, targetMessageId := m.targetMessageId,
    id := some m.id, prevState := none }

/-- The reaction snapshot computed in the reaction branch of sendMessage
(core.ts line 144): updateReactions(prevState or empty, messageObj) or
empty, with updateReactions the abstract merge collaborator. -/
def newReactionState
    (updateReactions : List MessageData → MessageData → Option (List MessageData))
    (prevState : Option (List MessageData)) (messageObj : MessageData) :
    List MessageData :=
  (updateReactions (prevState.getD []) messageObj).getD []

/-- The character-class test of the regexp in indexStrToBigint
(src/utils/common.ts): does the code point c fall in a-f or A-F. -/
def isHexLetterCode (c : Nat) : Bool :=
  decide ((97 ≤ c ∧ c ≤ 102) ∨ (65 ≤ c ∧ c ≤ 70))

/-- The numeric value JS parseInt assigns to a digit code point: a-z map to
10 and up, A-Z map to 10 and up, 0-9 map to their value. -/
def hexCharVal (c : Nat) : Nat :=
  if 97 ≤ c then c - 87 else if 65 ≤ c then c - 55 else c - 48

/-- JS parseInt(s, base) on a string consisting solely of valid digits of
the base (the only shape the engine feeds it), over code points. -/
def jsParseInt (base : Nat) (s : List Nat) : Nat :=
  s.foldl (fun acc c => acc * base + hexCharVal c) 0

/-- The hex-detection heuristic of indexStrToBigint (src/utils/common.ts
lines 47-48): a hex letter anywhere, a leading zero character (code point
48), or more than 10 characters. -/
def jsIsHexHeuristic (s : List Nat) : Bool :=
  s.any isHexLetterCode || s.head? == some 48 || decide (s.length > 10)

/-- indexStrToBigint (src/utils/common.ts lines 42-53) on a string of valid
digit code points: an empty (falsy) string yields undefined; a string the
heuristic flags is parsed as base 16, any other as base 10. -/
def indexStrToBigint (s : List Nat) : Option Nat :=
  if s.isEmpty then none
  else if jsIsHexHeuristic s then some (jsParseInt 16 s)
  else some (jsParseInt 10 s)

/-- Fuel-bounded big-endian digit expansion: correct whenever the value has
at most fuel digits in the base. -/
def toDigitsFuel (b : Nat) : Nat → Nat → List Nat
  | 0, _ => []
  | f + 1, n => if n < b then [n] else toDigitsFuel b f (n / b) ++ [n % b]

/-- The code point of the lowercase digit character for a digit value. -/
def digitCharCode (d : Nat) : Nat := if d < 10 then 48 + d else 87 + d

/-- Modelled from the spec: the decimal textual encoding of a non-negative
index (the representation the codec must accept per section 8); the source
repository only decodes, the encoding is the standard base-10 rendering,
total for indices below 10 to the 64. -/
def decEncode (n : Nat) : List Nat := (toDigitsFuel 10 64 n).map digitCharCode

/-- Modelled from the spec: the hexadecimal textual encoding of an index as
produced by FeedIndex.toString, a 16-character zero-padded lowercase base-16
rendering of the 8-byte index. -/
def hexEncode16 (n : Nat) : List Nat :=
  (List.replicate (16 - (toDigitsFuel 16 64 n).length) 0
    ++ toDigitsFuel 16 64 n).map digitCharCode

/-- Base-b value of a big-endian digit list. -/
def parseDigits (b : Nat) (L : List Nat) : Nat :=
  L.foldl (fun acc d => acc * b + d) 0

theorem parseDigits_append_singleton (b : Nat) (L : List Nat) (d : Nat) :
    parseDigits b (L ++ [d]) = parseDigits b L * b + d := by
  simp [parseDigits, List.foldl_append]

theorem parseDigits_toDigitsFuel (b : Nat) (hb : 2 ≤ b) :
    ∀ f n, n < b ^ f → parseDigits b (toDigitsFuel b f n) = n := by
  intro f
  induction f with
  | zero =>
    intro n hn
    have hz : n = 0 := by simpa using hn
    subst hz
    simp [toDigitsFuel, parseDigits]
  | succ f ih =>
    intro n hn
    by_cases h : n < b
    · simp [toDigitsFuel, h, parseDigits]
    · rw [toDigitsFuel, if_neg h, parseDigits_append_singleton]
      have hdiv : n / b < b ^ f := by
        rw [Nat.div_lt_iff_lt_mul (by omega)]
        calc n < b ^ (f + 1) := hn
        _ = b ^ f * b := by rw [pow_succ]
      rw [ih (n / b) hdiv, Nat.mul_comm]
      exact Nat.div_add_mod n b

theorem mem_toDigitsFuel_lt (b : Nat) (hb : 0 < b) :
    ∀ f n d, d ∈ toDigitsFuel b f n → d < b := by
  intro f
  induction f with
  | zero => intro n d hd; simp [toDigitsFuel] at hd
  | succ f ih =>
    intro n d hd
    rw [toDigitsFuel] at hd
    by_cases h : n < b
    · rw [if_pos h] at hd
      simp at hd
      omega
    · rw [if_neg h] at hd
      rcases List.mem_append.mp hd with h1 | h2
      · exact ih _ _ h1
      · simp at h2
        subst h2
        exact Nat.mod_lt _ hb

theorem length_toDigitsFuel (b : Nat) (hb : 2 ≤ b) :
    ∀ f n k, 1 ≤ k → n < b ^ k → (toDigitsFuel b f n).length ≤ k := by
  intro f
  induction f with
  | zero => intro n k hk _; simp [toDigitsFuel]
  | succ f ih =>
    intro n k hk hn
    rw [toDigitsFuel]
    by_cases h : n < b
    · rw [if_pos h]
      simpa using hk
    · rw [if_neg h]
      have hk2 : 2 ≤ k := by
        by_contra hlt
        have : k = 1 := by omega
        subst this
        simp at hn
        omega
      have hdiv : n / b < b ^ (k - 1) := by
        rw [Nat.div_lt_iff_lt_mul (by omega)]
        calc n < b ^ k := hn
        _ = b ^ (k - 1) * b := by
            rw [← pow_succ]
            congr 1
            omega
      have := ih (n / b) (k - 1) (by omega) hdiv
      rw [List.length_append]
      simp
      omega

theorem toDigitsFuel_ne_nil (b : Nat) (f n : Nat) (hf : 1 ≤ f) :
    toDigitsFuel b f n ≠ [] := by
  cases f with
  | zero => omega
  | succ f =>
    rw [toDigitsFuel]
    split
    · simp
    · simp

theorem headq_toDigitsFuel_ne_zero (b : Nat) (hb : 2 ≤ b) :
    ∀ f n, 1 ≤ n → n < b ^ f → (toDigitsFuel b f n).head? ≠ some 0 := by
  intro f
  induction f with
  | zero =>
    intro n hn1 hn
    simp at hn
    omega
  | succ f ih =>
    intro n hn1 hn
    rw [toDigitsFuel]
    by_cases h : n < b
    · rw [if_pos h]
      simp
      omega
    · rw [if_neg h]
      have hf1 : 1 ≤ f := by
        by_contra hlt
        have : f = 0 := by omega
        subst this
        simp at hn
        omega
      have hne := toDigitsFuel_ne_nil b f (n / b) hf1
      have hdiv1 : 1 ≤ n / b := by
        rw [Nat.one_le_div_iff (by omega)]
        omega
      have hdiv : n / b < b ^ f := by
        rw [Nat.div_lt_iff_lt_mul (by omega)]
        calc n < b ^ (f + 1) := hn
        _ = b ^ f * b := by rw [pow_succ]
      have := ih (n / b) hdiv1 hdiv
      cases hL : toDigitsFuel b f (n / b) with
      | nil => exact absurd hL hne
      | cons x xs =>
        rw [hL] at this
        simp at this ⊢
        exact this

theorem hexCharVal_digitCharCode (d : Nat) (hd : d < 16) :
    hexCharVal (digitCharCode d) = d := by
  unfold hexCharVal digitCharCode
  split_ifs <;> omega

theorem isHexLetterCode_digitCharCode (d : Nat) (hd : d < 10) :
    isHexLetterCode (digitCharCode d) = false := by
  unfold isHexLetterCode digitCharCode
  rw [if_pos hd]
  simp
  omega

theorem foldl_map_digitCharCode (b : Nat) :
    ∀ (L : List Nat) (acc : Nat), (∀ d ∈ L, d < 16) →
      (L.map digitCharCode).foldl (fun a c => a * b + hexCharVal c) acc =
        L.foldl (fun a d => a * b + d) acc := by
  intro L
  induction L with
  | nil => intro acc _; rfl
  | cons x xs ih =>
    intro acc h
    simp only [List.map_cons, List.foldl_cons]
    rw [hexCharVal_digitCharCode x (h x (by simp))]
    exact ih _ (fun d hd => h d (by simp [hd]))

theorem jsParseInt_map_digitCharCode (b : Nat) (L : List Nat)
    (h : ∀ d ∈ L, d < 16) : jsParseInt b (L.map digitCharCode) = parseDigits b L :=
  foldl_map_digitCharCode b L 0 h

theorem parseDigits_replicate_zero (b k : Nat) (L : List Nat) :
    parseDigits b (List.replicate k 0 ++ L) = parseDigits b L := by
  induction k with
  | zero => simp
  | succ k ih =>
    rw [List.replicate_succ]
    simp only [parseDigits, List.cons_append, List.foldl_cons] at ih ⊢
    simpa using ih

theorem fetchLatestMessage_ownIndex_le (s : CState)
    (latest : Option (MessageData × Int)) :
    s.ownIndex ≤ (fetchLatestMessage s latest).1.ownIndex := by
  unfold fetchLatestMessage
  split_ifs with h1 h2
  · exact le_refl _
  · simp
    omega
  · exact le_refl _

theorem fetchLatestMessage_reactionIndex_eq (s : CState)
    (latest : Option (MessageData × Int)) :
    (fetchLatestMessage s latest).1.reactionIndex = s.reactionIndex := by
  unfold fetchLatestMessage
  split_ifs <;> rfl

theorem fetchLatestReactionsCore_le (reactionIndex : Int) (nextIx : Option Int) :
    reactionIndex ≤ fetchLatestReactionsCore reactionIndex nextIx := by
  unfold fetchLatestReactionsCore
  cases nextIx with
  | none => exact le_refl _
  | some nxt =>
    simp only
    split_ifs <;> omega

theorem sendTextFromPointer_le (p : Int) (writeRes : Option Unit)
    (readBack : Option MessageData) (m : MessageData) :
    p ≤ (sendTextFromPointer p writeRes readBack m).1 := by
  unfold sendTextFromPointer
  cases hv : verifyWriteSuccess writeRes (some m) readBack with
  | ok _ =>
    simp only
    split_ifs <;> omega
  | error _ => exact le_refl _

/-- C8, counterexample: the claim fails as stated. Encoding the
non-negative index 10000000000 (ten billion, the smallest 11-digit decimal)
in the decimal representation and decoding it with the index codec yields
1099511627776, not the original value: the string has more than 10
characters, so the heuristic of indexStrToBigint misclassifies it as
hexadecimal. -/
theorem decEncode_roundTrip_fails_at_1e10 :
    indexStrToBigint (decEncode 10000000000) = some 1099511627776 ∧
      (1099511627776 : Nat) ≠ 10000000000 := by
  constructor
  · decide
  · decide

/-- C8 (amended): encoding a non-negative integer index n as a textual
sequence-number and decoding it with the index codec yields n again, for
the decimal representation whenever n is below 10 to the 10 (an 11-digit or
longer decimal string trips the length heuristic and is read as
hexadecimal), and for the 16-character zero-padded hexadecimal
representation produced by FeedIndex whenever n is below 2 to the 53 (the
bound below which JS parseInt is exact). -/
theorem indexCodec_roundTrip (n : Nat) :
    (n < 10 ^ 10 → indexStrToBigint (decEncode n) = some n) ∧
    (n < 2 ^ 53 → indexStrToBigint (hexEncode16 n) = some n) := by
  constructor
  · intro hn
    by_cases h0 : n = 0
    · subst h0
      decide
    · have hb : (2 : Nat) ≤ 10 := by norm_num
      have hd10 : ∀ d ∈ toDigitsFuel 10 64 n, d < 10 := fun d hd =>
        mem_toDigitsFuel_lt 10 (by norm_num) 64 n d hd
      have hd16 : ∀ d ∈ toDigitsFuel 10 64 n, d < 16 := fun d hd =>
        lt_of_lt_of_le (hd10 d hd) (by norm_num)
      have hne : toDigitsFuel 10 64 n ≠ [] := toDigitsFuel_ne_nil 10 64 n (by norm_num)
      have hlen : (toDigitsFuel 10 64 n).length ≤ 10 :=
        length_toDigitsFuel 10 hb 64 n 10 (by norm_num) hn
      have hn64 : n < 10 ^ 64 :=
        lt_of_lt_of_le hn (Nat.pow_le_pow_right (by norm_num) (by norm_num))
      have hhead : (toDigitsFuel 10 64 n).head? ≠ some 0 :=
        headq_toDigitsFuel_ne_zero 10 hb 64 n (by omega) hn64
      have hheur : jsIsHexHeuristic (decEncode n) = false := by
        unfold jsIsHexHeuristic decEncode
        simp only [Bool.or_eq_false_iff]
        refine ⟨⟨?_, ?_⟩, ?_⟩
        · rw [List.any_map, List.any_eq_false]
          intro d hd
          simp only [Function.comp_apply]
          simp [isHexLetterCode_digitCharCode d (hd10 d hd)]
        · rw [List.head?_map]
          cases hh : (toDigitsFuel 10 64 n).head? with
          | none => rfl
          | some x =>
            have hx0 : x ≠ 0 := by
              intro h
              rw [h] at hh
              exact hhead hh
            have hxmem : x ∈ toDigitsFuel 10 64 n :=
              List.mem_of_mem_head? (by rw [hh]; simp)
            have hx10 := hd10 x hxmem
            have hch : digitCharCode x ≠ 48 := by
              unfold digitCharCode
              rw [if_pos hx10]
              omega
            simp [hch]
        · rw [List.length_map]
          simp only [decide_eq_false_iff_not]
          omega
      have hne2 : decEncode n ≠ [] := by
        unfold decEncode
        simpa using hne
      unfold indexStrToBigint
      rw [if_neg (by simp [List.isEmpty_iff]; exact hne2), if_neg (by rw [hheur]; simp)]
      rw [decEncode, jsParseInt_map_digitCharCode 10 _ hd16,
        parseDigits_toDigitsFuel 10 hb 64 n hn64]
  · intro hn
    have hn1616 : n < 16 ^ 16 := lt_of_lt_of_le hn (by norm_num)
    have hn1664 : n < 16 ^ 64 := lt_of_lt_of_le hn (by norm_num)
    have hlen : (toDigitsFuel 16 64 n).length ≤ 16 :=
      length_toDigitsFuel 16 (by norm_num) 64 n 16 (by norm_num) hn1616
    have hd16 : ∀ d ∈ toDigitsFuel 16 64 n, d < 16 := fun d hd =>
      mem_toDigitsFuel_lt 16 (by norm_num) 64 n d hd
    have hpd16 : ∀ d ∈ List.replicate (16 - (toDigitsFuel 16 64 n).length) 0
        ++ toDigitsFuel 16 64 n, d < 16 := by
      intro d hd
      rcases List.mem_append.mp hd with h1 | h2
      · have := List.eq_of_mem_replicate h1
        omega
      · exact hd16 d h2
    have hlenmap : (hexEncode16 n).length = 16 := by
      unfold hexEncode16
      simp
      omega
    have hheur : jsIsHexHeuristic (hexEncode16 n) = true := by
      unfold jsIsHexHeuristic
      rw [hlenmap]
      simp
    have hne : hexEncode16 n ≠ [] := by
      intro h
      rw [h] at hlenmap
      simp at hlenmap
    unfold indexStrToBigint
    rw [if_neg (by simp [List.isEmpty_iff]; exact hne), if_pos (by rw [hheur])]
    rw [hexEncode16, jsParseInt_map_digitCharCode 16 _ hpd16,
      parseDigits_replicate_zero, parseDigits_toDigitsFuel 16 (by norm_num) 64 n hn1664]

/-- C8, witness: the bounded round-trip theorem applied at the concrete
index 12345 in both representations. -/
theorem indexCodec_roundTrip_witness :
    indexStrToBigint (decEncode 12345) = some 12345 ∧
      indexStrToBigint (hexEncode16 12345) = some 12345 :=
  ⟨(indexCodec_roundTrip 12345).1 (by norm_num),
    (indexCodec_roundTrip 12345).2 (by norm_num)⟩

/-- C1, counterexample: the claim fails for reaction appends. In a reaction
send from the fresh session state whose upload result is non-empty, a fresh
read at the written index 0 would return empty (readBack is none), yet the
operation succeeds and advances the reaction pointer instead of failing
with a fatal write-failure error: the reaction branch of sendMessage calls
verifyWriteSuccess without the data argument, so no read-back is performed
and neither the empty-read check nor the id/timestamp collision check runs. -/
theorem reactionSend_emptyReadback_succeeds :
    sendMessageReaction
        { ownIndex := -1, reactionIndex := -1, startIndex := -1,
          isSending := false, stopFetch := false, fetchProcessRunning := false }
        none (some ()) none =
      ({ ownIndex := -1, reactionIndex := 0, startIndex := -1,
         isSending := false, stopFetch := false, fetchProcessRunning := false },
        true) := by
  decide

/-- C1 (amended): for text/thread sends the engine performs a fresh read at
the written index after the append: an empty upload result is a fatal write
failure, an empty read-back is a fatal check failure, and a read-back whose
id or timestamp differ from what was written fails with the collision
error; a reaction send, however, only checks that the upload result is
non-empty, and performs no read-back verification (its outcome is the same
whatever the read at the written index would return). -/
theorem verifyWrite_characterization (m dataCheck : MessageData) (r : Unit)
    (d rb : Option MessageData) :
    verifyWriteSuccess none d rb = .error .writeFailed ∧
    verifyWriteSuccess (some r) (some m) none = .error .checkFailed ∧
    verifyWriteSuccess (some r) (some m) (some dataCheck) =
      (if dataCheck.id = m.id ∧ dataCheck.timestamp = m.timestamp then .ok ()
       else .error .verifyMismatch) ∧
    verifyWriteSuccess (some r) none rb = .ok () := by
  refine ⟨rfl, rfl, ?_, rfl⟩
  by_cases h : dataCheck.id = m.id ∧ dataCheck.timestamp = m.timestamp
  · simp [verifyWriteSuccess, h.1, h.2]
  · simp only [verifyWriteSuccess]
    rw [if_pos (not_and_or.mp h), if_neg h]

/-- C2: in a text/thread send from the pre-write pointer value p (the value
read right after the in-send resync), when the read-back at the written
index matches the written id and timestamp the send succeeds and the
pointer becomes exactly p plus 1 (the sentinel p equal to -1 yields 0,
which equals p plus 1); when the read-back id or timestamp differ, the send
ends in the error path and the pointer stays p. -/
theorem sendText_pointer_advance (p : Int) (r : Unit) (dataCheck m : MessageData) :
    sendTextFromPointer p (some r) (some dataCheck) m =
      (if dataCheck.id = m.id ∧ dataCheck.timestamp = m.timestamp then (p + 1, true)
       else (p, false)) := by
  by_cases h : dataCheck.id = m.id ∧ dataCheck.timestamp = m.timestamp
  · have hv : verifyWriteSuccess (some r) (some m) (some dataCheck) = .ok () := by
      simp [verifyWriteSuccess, h.1, h.2]
    rw [if_pos h]
    unfold sendTextFromPointer
    rw [hv]
    have hnext : (if p = -1 then (0 : Int) else p + 1) = p + 1 := by
      split_ifs with hp
      · omega
      · rfl
    rw [hnext]
  · have hv : verifyWriteSuccess (some r) (some m) (some dataCheck) =
        .error .verifyMismatch := by
      simp only [verifyWriteSuccess]
      rw [if_pos (not_and_or.mp h)]
    rw [if_neg h]
    unfold sendTextFromPointer
    rw [hv]

/-- C3: a session started with checkpoint latestIndex 10 whose
authoritative tip read parses to index 13 backfills exactly the range from
11 to 13: the range oracle answers only the request for indices 11 to 13,
all three (signature-valid, pairwise distinct) messages found there are
emitted exactly once, the message pointer ends at 13, and a following poll
tick that reads the same tip 13 emits nothing and leaves the state
unchanged. -/
theorem initBackfill_checkpoint10_tip13
    (m1 m2 m3 tipMsg : MessageData) (isValid : MessageData → Bool)
    (r st : Int) (sf fr : Bool)
    (hv1 : validateUserSignature isValid m1 = true)
    (hv2 : validateUserSignature isValid m2 = true)
    (hv3 : validateUserSignature isValid m3 = true)
    (h12 : m1 ≠ m2) (h13 : m1 ≠ m3) (h23 : m2 ≠ m3) :
    initOwnIndex (some 10) (-1) (some 13)
        (fun a b => if a = 11 ∧ b = 13 then some [m1, m2, m3] else none)
        isValid = (13, [m1, m2, m3]) ∧
    [m1, m2, m3].count m1 = 1 ∧ [m1, m2, m3].count m2 = 1 ∧
    [m1, m2, m3].count m3 = 1 ∧
    fetchLatestMessage
        { ownIndex := 13, reactionIndex := r, startIndex := st,
          isSending := false, stopFetch := sf, fetchProcessRunning := fr }
        (some (tipMsg, 13)) =
      ({ ownIndex := 13, reactionIndex := r, startIndex := st,
         isSending := false, stopFetch := sf, fetchProcessRunning := fr }, []) := by
  refine ⟨?_, ?_, ?_, ?_, ?_⟩
  · unfold initOwnIndex fetchMessagesInRange
    norm_num [MINUS_ONE_BIG, COMMENTS_TO_READ]
    simp [List.filter, hv1, hv2, hv3]
  · simp [List.count_cons, Ne.symm h12, Ne.symm h13]
  · simp [List.count_cons, h12, Ne.symm h23]
  · simp [List.count_cons, h13, h23]
  · unfold fetchLatestMessage
    rw [if_neg (by simp), if_neg]
    simp [historyFetchLatestMessage, MINUS_ONE_BIG]

/-- A concrete legacy-flagged message with a chosen id, used to instantiate
the backfill scenario. -/
def sampleMsg (k : Nat) : MessageData :=
  { id := k, username := 0, address := 0, timestamp := 0, type := .text,
    targetMessageId := none, message := 0, isLegacy := true, signature := none }

/-- C3, witness: the backfill theorem applied to three concrete distinct
legacy-flagged messages under an oracle answering only the range 11 to 13. -/
theorem initBackfill_checkpoint10_tip13_witness :
    initOwnIndex (some 10) (-1) (some 13)
        (fun a b =>
          if a = 11 ∧ b = 13 then some [sampleMsg 1, sampleMsg 2, sampleMsg 3]
          else none)
        (fun _ => true) = (13, [sampleMsg 1, sampleMsg 2, sampleMsg 3]) ∧
    [sampleMsg 1, sampleMsg 2, sampleMsg 3].count (sampleMsg 1) = 1 ∧
    [sampleMsg 1, sampleMsg 2, sampleMsg 3].count (sampleMsg 2) = 1 ∧
    [sampleMsg 1, sampleMsg 2, sampleMsg 3].count (sampleMsg 3) = 1 ∧
    fetchLatestMessage
        { ownIndex := 13, reactionIndex := 0, startIndex := 0,
          isSending := false, stopFetch := false, fetchProcessRunning := false }
        (some (sampleMsg 4, 13)) =
      ({ ownIndex := 13, reactionIndex := 0, startIndex := 0,
         isSending := false, stopFetch := false, fetchProcessRunning := false },
        []) :=
  initBackfill_checkpoint10_tip13 (sampleMsg 1) (sampleMsg 2) (sampleMsg 3)
    (sampleMsg 4) (fun _ => true) 0 0 false false (by decide) (by decide)
    (by decide) (by decide) (by decide) (by decide)

/-- C4, counterexample: the claim asserts that hasPrevious() is false
exactly when the history cursor is 0, but at the reachable cursor value -1
(the initial value, and the value after SwarmHistory.cleanup)
hasPreviousMessages returns false although the cursor differs from 0. -/
theorem hasPrevious_false_at_minus_one :
    hasPreviousMessages (-1) = false ∧ (-1 : Int) ≠ 0 := by
  decide

/-- C4 (amended): hasPrevious() returns true exactly when the history
cursor is strictly greater than 0 (so it is false for every cursor at most
0, including the pre-init value -1, not only at 0); loadPreviousPage from
cursor 12 with page width 9 sets the cursor to 3 and requests exactly the
inclusive range 3 to 11 (9 entries); from cursor 5 it sets the cursor to 0
and requests exactly the range 0 to 4 (5 entries); and whenever a range is
requested its bounds are non-negative. -/
theorem history_pagination (c a b : Int) :
    (hasPreviousMessages c = true ↔ 0 < c) ∧
    fetchPreviousMessageState 12 = (3, some (3, 11)) ∧
    fetchPreviousMessageState 5 = (0, some (0, 4)) ∧
    ((fetchPreviousMessageState c).2 = some (a, b) → 0 ≤ a ∧ a ≤ b) := by
  refine ⟨?_, by decide, by decide, ?_⟩
  · simp [hasPreviousMessages]
  · unfold fetchPreviousMessageState COMMENTS_TO_READ
    split_ifs with h1 h2 <;> intro h <;> simp at h <;> omega

/-- C4, witness: the pagination theorem applied at cursor 12 and the range
it requests there. -/
theorem history_pagination_witness : (0 : Int) ≤ 3 ∧ (3 : Int) ≤ 11 :=
  (history_pagination 12 3 11).2.2.2 (by decide)

/-- C5: within a session, every modelled operation is monotone on both
stream pointers: the poll-tick message refresh and reaction refresh, the
text/thread send and the reaction send (whatever their outcome, including
verification failure), and the init backfill never assign a pointer a value
smaller than its current one; each operation also leaves the other stream
pointer untouched, and a failed refresh (oracle none) leaves the state
unchanged. -/
theorem pointers_monotone (s : CState) (latest : Option (MessageData × Int))
    (nextIx preNextIx : Option Int) (writeRes : Option Unit)
    (readBack : Option MessageData) (m : MessageData)
    (latestIndex : Option Int) (ownIndex0 : Int) (parsedIx : Option Int)
    (oracle : Int → Int → Option (List MessageData))
    (isValid : MessageData → Bool) :
    s.ownIndex ≤ (fetchLatestMessage s latest).1.ownIndex ∧
    (fetchLatestMessage s latest).1.reactionIndex = s.reactionIndex ∧
    s.reactionIndex ≤ (fetchLatestReactions s nextIx).reactionIndex ∧
    (fetchLatestReactions s nextIx).ownIndex = s.ownIndex ∧
    s.ownIndex ≤ (sendMessageText s latest writeRes readBack m).1.ownIndex ∧
    (sendMessageText s latest writeRes readBack m).1.reactionIndex =
      s.reactionIndex ∧
    s.reactionIndex ≤
      (sendMessageReaction s preNextIx writeRes readBack).1.reactionIndex ∧
    (sendMessageReaction s preNextIx writeRes readBack).1.ownIndex =
      s.ownIndex ∧
    fetchLatestMessage s none = (s, []) ∧
    fetchLatestReactions s none = s ∧
    latestIndex.getD ownIndex0 ≤
      (initOwnIndex latestIndex ownIndex0 parsedIx oracle isValid).1 := by
  refine ⟨fetchLatestMessage_ownIndex_le s latest,
    fetchLatestMessage_reactionIndex_eq s latest,
    fetchLatestReactionsCore_le s.reactionIndex nextIx, rfl, ?_, ?_, ?_, ?_, ?_, ?_, ?_⟩
  · calc s.ownIndex ≤ (fetchLatestMessage s latest).1.ownIndex :=
        fetchLatestMessage_ownIndex_le s latest
    _ ≤ (sendMessageText s latest writeRes readBack m).1.ownIndex := by
        unfold sendMessageText
        simp only
        exact sendTextFromPointer_le _ writeRes readBack m
  · unfold sendMessageText
    simp only
    exact fetchLatestMessage_reactionIndex_eq s latest
  · have h1 : s.reactionIndex ≤ (fetchLatestReactions s preNextIx).reactionIndex :=
      fetchLatestReactionsCore_le s.reactionIndex preNextIx
    unfold sendMessageReaction
    cases hv : verifyWriteSuccess writeRes none readBack with
    | ok _ =>
      simp only
      split_ifs <;> omega
    | error _ => exact h1
  · unfold sendMessageReaction
    cases hv : verifyWriteSuccess writeRes none readBack <;> rfl
  · unfold fetchLatestMessage
    split_ifs with h1 h2
    · rfl
    · exact absurd rfl h2.1
    · rfl
  · unfold fetchLatestReactions fetchLatestReactionsCore
    simp
  · unfold initOwnIndex
    cases parsedIx with
    | none => exact le_refl _
    | some ix =>
      simp only
      split_ifs with h
      · omega
      · exact le_refl _

/-- C6: while the boolean write-in-flight guard is set, the poll-loop
message-stream refresh returns immediately, changing nothing and emitting
nothing; the reaction-stream refresh does not consult the guard, so its
pointer update is the same whatever the guard value; and both branches of
the send operation clear the guard on every exit, success or failure. -/
theorem sending_guard (s : CState) (latest : Option (MessageData × Int))
    (nextIx preNextIx : Option Int) (writeRes : Option Unit)
    (readBack : Option MessageData) (m : MessageData) (g : Bool) :
    fetchLatestMessage { s with isSending := true } latest =
      ({ s with isSending := true }, []) ∧
    (fetchLatestReactions { s with isSending := g } nextIx).reactionIndex =
      (fetchLatestReactions s nextIx).reactionIndex ∧
    (sendMessageText s latest writeRes readBack m).1.isSending = false ∧
    (sendMessageReaction s preNextIx writeRes readBack).1.isSending = false := by
  refine ⟨?_, rfl, ?_, ?_⟩
  · unfold fetchLatestMessage
    rw [if_pos rfl]
  · unfold sendMessageText
    simp only
  · unfold sendMessageReaction
    cases hv : verifyWriteSuccess writeRes none readBack <;> rfl

/-- C7, counterexample: the claim fails for the message-stream pointer.
From a session state whose message pointer is 5, stop() returns with the
message pointer still 5, not -1: SwarmComment.stop resets reactionIndex
and the history cursor but never touches userDetails.ownIndex. -/
theorem stop_keeps_message_pointer :
    (stop { ownIndex := 5, reactionIndex := 7, startIndex := 3,
            isSending := false, stopFetch := false,
            fetchProcessRunning := true }).ownIndex = 5 ∧ (5 : Int) ≠ -1 := by
  decide

/-- C7 (amended): after stop() returns, the reaction-stream pointer and the
history cursor equal -1 regardless of the prior state, while the
message-stream pointer retains whatever value it had before the call. -/
theorem stop_resets_pointers (s : CState) :
    (stop s).reactionIndex = -1 ∧ (stop s).startIndex = -1 ∧
      (stop s).ownIndex = s.ownIndex :=
  ⟨rfl, rfl, rfl⟩

/-- C9: a legacy-flagged entry always passes signature validation; a
non-legacy entry passes exactly when its signature is present and verifies
the recomputed digest against the claimed author address (the abstract
isValid oracle); within a fetched page the entries failing validation are
dropped from delivery while the remaining entries are still delivered (the
emission list is the validation filter of the page), and no error is
raised either for a failing entry or for a missing page. -/
theorem signature_validation (isValid : MessageData → Bool) (m : MessageData)
    (a b : Int) (comments : List MessageData) :
    validateUserSignature isValid { m with isLegacy := true } = true ∧
    validateUserSignature isValid { m with isLegacy := false } =
      (({ m with isLegacy := false } : MessageData).signature.isSome &&
        isValid { m with isLegacy := false }) ∧
    fetchMessagesInRange a b (fun _ _ => some comments) isValid =
      comments.filter (fun c => validateUserSignature isValid c) ∧
    fetchMessagesInRange a b (fun _ _ => none) isValid = [] := by
  refine ⟨rfl, ?_, rfl, rfl⟩
  simp only [validateUserSignature]
  cases hs : m.signature <;> simp [hs]

/-- C10: retrySendMessage forwards the original body, kind, target id and
message id unchanged to sendMessage and omits the prevState argument, so
for a REACTION resend the rewritten snapshot is computed by merging the
reaction into the empty prior state (updateReactions applied to the empty
list) rather than into the snapshot used by the original send. -/
theorem retrySend_omits_prevState (m messageObj : MessageData)
    (updateReactions : List MessageData → MessageData → Option (List MessageData)) :
    (retrySendMessage m).message = m.message ∧
    (retrySendMessage m).type = m.type ∧
    (retrySendMessage m).targetMessageId = m.targetMessageId ∧
    (retrySendMessage m).id = some m.id ∧
    (retrySendMessage m).prevState = none ∧
    newReactionState updateReactions (retrySendMessage m).prevState messageObj =
      (updateReactions [] messageObj).getD [] :=
  ⟨rfl, rfl, rfl, rfl, rfl, rfl⟩

end SwarmCommentJs
